import Mathlib

/-!
Shallow embedding of `src/src/subject.rs` (crate `rx_rs`): the `Subject`
broadcast node, its callback registry, subscriptions, and `from_stream`.

The Rust data type is

  pub struct Subject<'a, T> { callbacks: Rc<RefCell<Vec<Box<FnMut(&T) + 'a>>>> }

A registered callback is a boxed `FnMut` closure: it owns a mutable capture
environment (modelled by a state of type `σ` and an update function), and
its box's raw fat pointer (`CallbackPtr`) is the identity used by
`remove_callback`.  Boxing a closure that captures state performs a heap
allocation, so its data address is distinct from that of every live box;
boxing a zero-sized (captureless) closure performs no allocation, so every
box of the same zero-sized closure type shares one dangling data pointer
and one vtable, i.e. one `CallbackPtr`.

`Subject::next` holds `self.callbacks.borrow_mut()` for the entire delivery
loop.  A callback body that itself touches the same registry (subscribing,
unsubscribing, or re-entering `next` on the same Subject or any clone) calls
`borrow_mut` on the already mutably borrowed `RefCell` and panics.  A
callback's optional registry access is modelled by the `Reentry` field; a
delivery pass that invokes a callback whose body accesses the registry
aborts (`Except.error ()` models the `RefCell` double-borrow panic).
-/

/-!
The Rc layer.  `Subject` in Rust is a *handle*: a `Rc` pointer to the shared
`RefCell` cell.  `impl Clone for Subject` (subject.rs lines 14-20) clones the
`Rc`, i.e. copies the pointer; the callback vector itself is never cloned.
A `World` is the heap of allocated cells, a handle an index into it.
-/

/-!
The `from_stream` trace model.  `Subject::from_stream(stream)` (subject.rs
lines 54-65) creates a fresh empty Subject, clones it, and subscribes to the
upstream `stream` the forwarding closure `move |x| { clone.next(x); }`; the
fresh Subject is returned to the caller.  From then on the upstream produces
items while downstream observers subscribe to the returned Subject in some
interleaving; each upstream item `x` runs the forwarding closure, i.e. a
`next x` on the shared registry.  A trace records that interleaving.
-/

/-- Embedding of `CallbackPtr<'a, T> = *const (dyn FnMut(&T) + 'a)`
(subject.rs line 5): the raw fat pointer (data address plus vtable) of a
boxed callback, used as the removal identity.  `Box::new` of a closure that
captures state allocates, so its data address is distinct from every live
box's (`heap a`, with `a` drawn from the monotone allocation supply).
`Box::new` of a zero-sized captureless closure does not allocate: its data
pointer is the type's dangling aligned address and its vtable the one
static vtable of that closure type, so every box of the same zero-sized
closure yields the very same fat pointer (`zst t`, with `t` identifying
the closure's type). -/
inductive CallbackPtr where
  | zst (t : Nat) : CallbackPtr
  | heap (a : Nat) : CallbackPtr
deriving DecidableEq

/-- The registry access (if any) a callback's body performs on the Subject
whose registry holds it.  `noop` is a pure callback (only its capture
environment is updated); the other constructors model a body that calls
`subscribe`, `unsubscribe`, or `next` on the same Subject (or a clone,
which shares the same `RefCell`) while it is being invoked by a delivery
pass. -/
inductive Reentry (T σ : Type) where
  | noop : Reentry T σ
  | subAppend (upd : σ → T → σ) (init : σ) : Reentry T σ
  | subRemove (ptr : CallbackPtr) : Reentry T σ
  | reNext (v : T) : Reentry T σ

/-- A registered callback entry: a boxed `FnMut(&T)` closure.  `state` is
the current value of its mutable capture environment, `upd` the effect of
one invocation on that environment, and `reentry` the registry access (if
any) its body performs when invoked.  `zst` is `some t` when the closure
captures nothing — it is a zero-sized type, `t` identifying the closure
type, and having no captures its `state` is inert — and `none` when the
closure captures state, so that its box is a fresh heap allocation. -/
structure Callback (T σ : Type) where
  state : σ
  upd : σ → T → σ
  reentry : Reentry T σ
  zst : Option Nat

/-- The shared registry of a `Subject<'a, T>`: the contents of the
`Rc<RefCell<Vec<Box<FnMut(&T)>>>>` cell (every clone of the Subject holds
the same cell).  Each vector element is paired with its box's fat pointer;
`nextPtr` is the supply of fresh heap addresses (live heap allocations are
pairwise distinct). -/
structure Subject (T σ : Type) where
  callbacks : List (CallbackPtr × Callback T σ)
  nextPtr : Nat

/-- Embedding of `Subject::new` (subject.rs lines 46-50): a fresh handle
over an empty registry. -/
def Subject.new {T σ : Type} : Subject T σ :=
  ⟨[], 0⟩

/-- The boxing step of `subscribe` (subject.rs lines 30-35):
`Box::new(observer)` followed by `observer.as_ref() as CallbackPtr<T>`.
Returns the box's fat pointer together with the heap-address supply after
the boxing: a capturing closure takes a fresh heap address; a zero-sized
closure does not allocate, and all its boxes share one dangling pointer
and vtable. -/
def boxAlloc {T σ : Type} (s : Subject T σ) (cb : Callback T σ) :
    CallbackPtr × Nat :=
  match cb.zst with
  | some t => (CallbackPtr.zst t, s.nextPtr)
  | none => (CallbackPtr.heap s.nextPtr, s.nextPtr + 1)

/-- Embedding of `Observable::subscribe for Subject` (subject.rs lines
26-42) at the registry level: box the observer, take its fat pointer, push
the box onto the callback vector, and return the pointer stored in the
resulting `SubjectSubscription`. -/
def Subject.subscribe {T σ : Type} (s : Subject T σ) (cb : Callback T σ) :
    Subject T σ × CallbackPtr :=
  (⟨s.callbacks ++ [((boxAlloc s cb).1, cb)], (boxAlloc s cb).2⟩,
   (boxAlloc s cb).1)

/-- Embedding of `Subject::remove_callback` (subject.rs lines 67-72):
`self.callbacks.borrow_mut().retain(|x| x.as_ref() as *const _ != ptr)` —
every entry whose fat pointer equals `ptr` is removed. -/
def Subject.remove_callback {T σ : Type} (s : Subject T σ)
    (ptr : CallbackPtr) : Subject T σ :=
  ⟨s.callbacks.filter (fun x => decide (x.1 ≠ ptr)), s.nextPtr⟩

/-- One delivery pass over the callback vector: the loop body of
`Observer::next for Subject` (subject.rs lines 78-83), executed while the
`RefCell` is mutably borrowed.  Invoking a pure callback updates its
capture environment and logs the invocation `(ptr, v)`; invoking a callback
whose body accesses the registry hits the held mutable borrow and panics
(`Except.error ()`).  Returns the updated vector and the invocation log in
iteration order. -/
def runPass {T σ : Type} (v : T) :
    List (CallbackPtr × Callback T σ) →
      Except Unit (List (CallbackPtr × Callback T σ) × List (CallbackPtr × T))
  | [] => Except.ok ([], [])
  | (ptr, cb) :: rest =>
    match cb.reentry with
    | Reentry.noop =>
      match runPass v rest with
      | Except.ok (rest2, log) =>
        Except.ok
          ((ptr, ⟨cb.upd cb.state v, cb.upd, cb.reentry, cb.zst⟩) :: rest2,
           (ptr, v) :: log)
      | Except.error e => Except.error e
    | _ => Except.error ()

/-- Embedding of `Observer::next for Subject` (subject.rs lines 78-83):
take the mutable borrow, run the delivery pass over the current vector, and
return `&self` (modelled by returning the Subject with its callbacks'
capture environments updated) together with the invocation log. -/
def Subject.next {T σ : Type} (s : Subject T σ) (v : T) :
    Except Unit (Subject T σ × List (CallbackPtr × T)) :=
  match runPass v s.callbacks with
  | Except.ok (cbs, log) => Except.ok (⟨cbs, s.nextPtr⟩, log)
  | Except.error e => Except.error e

/-- A callback entry is pure: its body does not access the registry. -/
def Reentry.isNoop {T σ : Type} : Reentry T σ → Bool
  | Reentry.noop => true
  | _ => false

/-- Every registered callback is pure (none re-enters the registry). -/
def Subject.allNoop {T σ : Type} (s : Subject T σ) : Bool :=
  s.callbacks.all (fun e => e.2.reentry.isNoop)

/-- The fat pointer's heap address, if any, is below the allocation
supply. -/
def CallbackPtr.heapBelow : CallbackPtr → Nat → Bool
  | CallbackPtr.heap a, n => decide (a < n)
  | CallbackPtr.zst _, _ => true

/-- Well-formedness of the heap-address supply: every live heap-allocated
box's address was drawn before the current supply value, so a fresh heap
allocation is distinct from every live one (Rust guarantees live boxes
never alias).  This holds for every Subject built from `Subject.new` by
the operations above; zero-sized entries carry no heap address. -/
def Subject.wf {T σ : Type} (s : Subject T σ) : Bool :=
  s.callbacks.all (fun e => e.1.heapBelow s.nextPtr)

/-- A `Subject` handle: the `Rc` pointer identifying the shared cell. -/
abbrev SubjectHandle := Nat

/-- The heap of allocated `Rc<RefCell<Vec<Box<FnMut(&T)>>>>` cells. -/
structure World (T σ : Type) where
  cells : List (Subject T σ)

/-- Dereference a handle: the registry its cell currently holds. -/
def World.getCell {T σ : Type} (w : World T σ) (h : SubjectHandle) :
    Subject T σ :=
  w.cells.getD h Subject.new

/-- Store an updated registry back into a handle's cell. -/
def World.setCell {T σ : Type} (w : World T σ) (h : SubjectHandle)
    (s : Subject T σ) : World T σ :=
  ⟨w.cells.set h s⟩

/-- Embedding of `impl Clone for Subject` (subject.rs lines 14-20):
`Subject { callbacks: self.callbacks.clone() }` clones the `Rc` pointer, so
the clone is a handle to the very same cell; no callback is cloned and the
heap is untouched. -/
def cloneSubject (h : SubjectHandle) : SubjectHandle :=
  h

/-- Embedding of `SubjectSubscription` (subject.rs lines 86-89):
`subscribe` consumes the Subject handle by value and moves it into the
returned subscription, together with the fat pointer of the appended
callback's box. -/
structure SubjectSubscription where
  source : SubjectHandle
  callback : CallbackPtr

/-- Embedding of `Observable::subscribe for Subject` (subject.rs lines
26-42) at the handle level: push the boxed observer onto the cell the
handle points to, and move the handle into the returned
`SubjectSubscription` alongside the box pointer. -/
def World.subscribe {T σ : Type} (w : World T σ) (h : SubjectHandle)
    (cb : Callback T σ) : World T σ × SubjectSubscription :=
  let r := (w.getCell h).subscribe cb
  (w.setCell h r.1, ⟨h, r.2⟩)

/-- Embedding of `Observer::next for Subject` (subject.rs lines 78-83) at
the handle level: run the delivery pass on the cell the handle points to. -/
def World.next {T σ : Type} (w : World T σ) (h : SubjectHandle) (v : T) :
    Except Unit (World T σ × List (CallbackPtr × T)) :=
  match (w.getCell h).next v with
  | Except.ok (s, log) => Except.ok (w.setCell h s, log)
  | Except.error e => Except.error e

/-- Embedding of `Subscription::unsubscribe for SubjectSubscription`
(subject.rs lines 91-93): `self.source.remove_callback(self.callback)` —
the consuming call delegates to `remove_callback` on the moved-in handle. -/
def SubjectSubscription.unsubscribe {T σ : Type} (sub : SubjectSubscription)
    (w : World T σ) : World T σ :=
  w.setCell sub.source ((w.getCell sub.source).remove_callback sub.callback)

/-- One event in the life of a Subject obtained from `from_stream`: either
the upstream stream produces an item `x` (running the forwarding closure
`clone.next(x)`), or a downstream observer subscribes to the returned
Subject. -/
inductive Event (T σ : Type) where
  | emit (x : T) : Event T σ
  | subscribeObs (cb : Callback T σ) : Event T σ

/-- Run a trace of upstream productions and downstream subscriptions
against the shared registry, accumulating the concatenated invocation logs
of all delivery passes. -/
def runTrace {T σ : Type} (s : Subject T σ) :
    List (Event T σ) → Except Unit (Subject T σ × List (CallbackPtr × T))
  | [] => Except.ok (s, [])
  | Event.emit x :: rest =>
    match s.next x with
    | Except.ok (s2, log1) =>
      match runTrace s2 rest with
      | Except.ok (s3, log2) => Except.ok (s3, log1 ++ log2)
      | Except.error e => Except.error e
    | Except.error e => Except.error e
  | Event.subscribeObs cb :: rest => runTrace (s.subscribe cb).1 rest

/-- Embedding of `Subject::from_stream` (subject.rs lines 54-65): the
returned Subject starts as `Subject::new` (empty registry) and the
forwarding subscription replays every upstream item into it via `next`;
the given trace is then run against it. -/
def Subject.from_stream {T σ : Type} (tr : List (Event T σ)) :
    Except Unit (Subject T σ × List (CallbackPtr × T)) :=
  runTrace Subject.new tr

/-- Modelled from the spec's words (section 8): for every item the upstream
produces, every observer subscribed at the time of that production receives
it exactly once, in registration order, and observers subscribing after a
given item do not retroactively receive it.  `regIds` are the identities
registered so far, `fresh` the heap-address supply; a registration's
identity is the box pointer the code assigns it, determined by the
closure's size class. -/
def fromStreamSpecLog {T σ : Type} (regIds : List CallbackPtr) (fresh : Nat) :
    List (Event T σ) → List (CallbackPtr × T)
  | [] => []
  | Event.emit x :: rest =>
    regIds.map (fun i => (i, x)) ++ fromStreamSpecLog regIds fresh rest
  | Event.subscribeObs cb :: rest =>
    match cb.zst with
    | some t =>
      fromStreamSpecLog (regIds ++ [CallbackPtr.zst t]) fresh rest
    | none =>
      fromStreamSpecLog (regIds ++ [CallbackPtr.heap fresh]) (fresh + 1) rest

/-- Every observer a trace subscribes is a pure callback. -/
def traceNoop {T σ : Type} : List (Event T σ) → Bool
  | [] => true
  | Event.emit _ :: rest => traceNoop rest
  | Event.subscribeObs cb :: rest => cb.reentry.isNoop && traceNoop rest

/-- The value of a callback's captured mutable environment after the
deliveries recorded in a log: the `FnMut` closure applies its update once
per invocation of its own pointer, and is untouched by invocations of
other pointers. -/
def recordedState {T σ : Type} (init : σ) (upd : σ → T → σ)
    (p : CallbackPtr) (log : List (CallbackPtr × T)) : σ :=
  ((log.filter (fun e => e.1 == p)).map Prod.snd).foldl upd init

/-- Concrete registry for the claim C1 witness: two capturing callbacks, an
accumulator starting at 0 and a doubler starting at 5. -/
def c1Sub : Subject Int Int :=
  ⟨[(CallbackPtr.heap 0, ⟨0, fun st x => st + x, Reentry.noop, none⟩),
    (CallbackPtr.heap 1, ⟨5, fun _ x => 2 * x, Reentry.noop, none⟩)], 2⟩

/-- Concrete registry for the claim C10 witness: the second callback
re-entrantly calls `next 7` on the same Subject from inside its body. -/
def c10Sub : Subject Int Int :=
  ⟨[(CallbackPtr.heap 0, ⟨0, fun st x => st + x, Reentry.noop, none⟩),
    (CallbackPtr.heap 1, ⟨0, fun st _ => st, Reentry.reNext 7, none⟩)], 2⟩

/-- Concrete registry for the claim C3 counterexample: its single callback
subscribes a new observer to the same Subject from inside its body while
the delivery pass is running. -/
def c3Sub : Subject Int Int :=
  ⟨[(CallbackPtr.heap 0,
     ⟨0, fun st _ => st, Reentry.subAppend (fun st _ => st) 0, none⟩)], 1⟩

/-- Concrete registry for the claim C3 amended witness: a single pure
callback. -/
def c3aSub : Subject Int Int :=
  ⟨[(CallbackPtr.heap 0, ⟨0, fun st x => st + x, Reentry.noop, none⟩)], 1⟩

/-- Concrete registry for the claim C6 witness: three callbacks boxed at
heap addresses 0, 1, 2; the middle one is removed. -/
def c6Sub : Subject Int Int :=
  ⟨[(CallbackPtr.heap 0, ⟨0, fun st x => st + x, Reentry.noop, none⟩),
    (CallbackPtr.heap 1, ⟨0, fun _ x => x, Reentry.noop, none⟩),
    (CallbackPtr.heap 2, ⟨1, fun st x => st * x, Reentry.noop, none⟩)], 3⟩

/-- The zero-sized closure of the claim C7 counterexample: it captures
nothing, so every box of it shares one fat pointer. -/
def c7Z : Callback Int Int :=
  ⟨0, fun st _ => st, Reentry.noop, some 0⟩

/-- First subscription of `c7Z` to a fresh Subject. -/
def c7s1 : Subject Int Int × CallbackPtr :=
  (Subject.new : Subject Int Int).subscribe c7Z

/-- Second subscription of the same zero-sized closure `c7Z`. -/
def c7s2 : Subject Int Int × CallbackPtr :=
  c7s1.1.subscribe c7Z

/-- Concrete registry for the claim C7 amended witness: one capturing
callback already registered. -/
def c7Sub : Subject Int Int :=
  ⟨[(CallbackPtr.heap 0, ⟨0, fun st x => st + x, Reentry.noop, none⟩)], 1⟩

/-- The capturing closure value subscribed twice in the claim C7 amended
witness (a closure holding a shared reference is `Copy` but not
zero-sized, so each registration boxes it at a fresh heap address). -/
def c7Cb : Callback Int Int :=
  ⟨0, fun _ x => x, Reentry.noop, none⟩

/-- Concrete registry for the claim C8 witness. -/
def c8Sub : Subject Int Int :=
  ⟨[(CallbackPtr.heap 0, ⟨0, fun st x => st + x, Reentry.noop, none⟩)], 1⟩

/-- The capturing observer of the claim C2 scenario: records the doubled
value. -/
def c2A : Callback Int Int := ⟨0, fun _ x => 2 * x, Reentry.noop, none⟩

/-- The world of the claim C2 scenario after subscribing `c2A` to a fresh
Subject at handle 0. -/
def c2w1 : World Int Int := (World.subscribe ⟨[Subject.new]⟩ 0 c2A).1

/-- The subscription returned for `c2A` in the claim C2 scenario. -/
def c2s : SubjectSubscription := (World.subscribe ⟨[Subject.new]⟩ 0 c2A).2

/-- The world of the claim C2 scenario after `next 1`: the observer's
recorded environment is 2. -/
def c2w2 : World Int Int :=
  ⟨[⟨[(CallbackPtr.heap 0, ⟨2, fun _ x => 2 * x, Reentry.noop, none⟩)], 1⟩]⟩

/-- The zero-sized observer of the claim C2 counterexample. -/
def c2Z : Callback Int Int := ⟨0, fun st _ => st, Reentry.noop, some 0⟩

/-- The first subscription of `c2Z` to a fresh Subject at handle 0. -/
def c2xSubA : SubjectSubscription :=
  (World.subscribe ⟨[Subject.new]⟩ 0 c2Z).2

/-- The world after subscribing the same zero-sized observer `c2Z` twice:
two registry entries sharing one fat pointer. -/
def c2xw2 : World Int Int :=
  (World.subscribe (World.subscribe ⟨[Subject.new]⟩ 0 c2Z).1 0 c2Z).1

/-- The first observer of the claim C4 witness. -/
def c4A : Callback Int Int := ⟨0, fun st x => st + x, Reentry.noop, none⟩

/-- The second observer of the claim C4 witness, subscribed via the
clone. -/
def c4B : Callback Int Int := ⟨0, fun _ x => x, Reentry.noop, none⟩

/-- The initial world of the claim C4 witness: one fresh Subject. -/
def c4w : World Int Int := ⟨[Subject.new]⟩

/-- The callback of the claim C9 witness. -/
def c9Cb : Callback Int Int := ⟨0, fun st x => st + x, Reentry.noop, none⟩

/-- The initial world of the claim C9 witness: one fresh Subject. -/
def c9w : World Int Int := ⟨[Subject.new]⟩

/-- The trace of the claim C5 witness: a doubling recorder subscribes, the
upstream emits 1, a summing recorder subscribes, the upstream emits 2. -/
def c5Trace : List (Event Int Int) :=
  [Event.subscribeObs ⟨0, fun _ x => 2 * x, Reentry.noop, none⟩,
   Event.emit 1,
   Event.subscribeObs ⟨0, fun st x => st + x, Reentry.noop, none⟩,
   Event.emit 2]

theorem allNoop_iff {T σ : Type} (s : Subject T σ) :
    s.allNoop = true ↔ ∀ e ∈ s.callbacks, e.2.reentry = Reentry.noop := by
  simp only [Subject.allNoop, List.all_eq_true]
  constructor
  · intro h e he
    have := h e he
    cases hr : e.2.reentry <;> simp [Reentry.isNoop, hr] at this ⊢
  · intro h e he
    rw [h e he]
    rfl

theorem wf_spec {T σ : Type} (s : Subject T σ) (hwf : s.wf = true) :
    ∀ e ∈ s.callbacks, ∀ a, e.1 = CallbackPtr.heap a → a < s.nextPtr := by
  rw [Subject.wf, List.all_eq_true] at hwf
  intro e he a ha
  have := hwf e he
  rw [ha] at this
  simpa [CallbackPtr.heapBelow] using this

theorem runPass_ok {T σ : Type} (v : T)
    (l : List (CallbackPtr × Callback T σ))
    (h : ∀ e ∈ l, e.2.reentry = Reentry.noop) :
    runPass v l =
      Except.ok
        (l.map (fun e =>
          (e.1, ⟨e.2.upd e.2.state v, e.2.upd, e.2.reentry, e.2.zst⟩)),
         l.map (fun e => (e.1, v))) := by
  induction l with
  | nil => rfl
  | cons hd tl ih =>
    have hhd : hd.2.reentry = Reentry.noop := h hd (List.mem_cons_self hd tl)
    have htl : ∀ e ∈ tl, e.2.reentry = Reentry.noop := by
      intro e he
      exact h e (List.mem_cons_of_mem hd he)
    obtain ⟨p, cb⟩ := hd
    simp only [runPass]
    rw [hhd, ih htl]
    simp only [List.map_cons]
    exact congrArg _ (by rw [hhd])

theorem runPass_error {T σ : Type} (v : T)
    (l : List (CallbackPtr × Callback T σ))
    (h : ∃ e ∈ l, e.2.reentry ≠ Reentry.noop) :
    runPass v l = Except.error () := by
  induction l with
  | nil => simp at h
  | cons hd tl ih =>
    obtain ⟨p, cb⟩ := hd
    obtain ⟨e, he, hne⟩ := h
    simp only [runPass]
    rcases List.mem_cons.mp he with heq | hmem
    · subst heq
      cases hcb : cb.reentry with
      | noop => exact absurd hcb hne
      | subAppend u i => rfl
      | subRemove q => rfl
      | reNext w => rfl
    · cases hcb : cb.reentry with
      | noop =>
        rw [ih ⟨e, hmem, hne⟩]
      | subAppend u i => rfl
      | subRemove q => rfl
      | reNext w => rfl

theorem next_ok {T σ : Type} (s : Subject T σ) (v : T)
    (h : ∀ e ∈ s.callbacks, e.2.reentry = Reentry.noop) :
    s.next v =
      Except.ok
        (⟨s.callbacks.map (fun e =>
            (e.1, ⟨e.2.upd e.2.state v, e.2.upd, e.2.reentry, e.2.zst⟩)),
          s.nextPtr⟩,
         s.callbacks.map (fun e => (e.1, v))) := by
  unfold Subject.next
  rw [runPass_ok v s.callbacks h]

theorem next_error {T σ : Type} (s : Subject T σ) (v : T)
    (h : ∃ e ∈ s.callbacks, e.2.reentry ≠ Reentry.noop) :
    s.next v = Except.error () := by
  unfold Subject.next
  rw [runPass_error v s.callbacks h]

theorem getCell_setCell_self {T σ : Type} (w : World T σ) (h : SubjectHandle)
    (s : Subject T σ) (hlt : h < w.cells.length) :
    (w.setCell h s).getCell h = s := by
  unfold World.setCell World.getCell
  simp [List.getD_eq_getElem?_getD, List.getElem?_set_self, hlt]

theorem getCell_setCell_ne {T σ : Type} (w : World T σ)
    (h h2 : SubjectHandle) (s : Subject T σ) (hne : h ≠ h2) :
    (w.setCell h s).getCell h2 = w.getCell h2 := by
  unfold World.setCell World.getCell
  simp [List.getD_eq_getElem?_getD, List.getElem?_set_ne hne]

theorem setCell_length {T σ : Type} (w : World T σ) (h : SubjectHandle)
    (s : Subject T σ) : (w.setCell h s).cells.length = w.cells.length := by
  unfold World.setCell
  simp

theorem world_next_ok {T σ : Type} (w : World T σ) (h : SubjectHandle)
    (v : T)
    (hn : ∀ e ∈ (w.getCell h).callbacks, e.2.reentry = Reentry.noop) :
    World.next w h v =
      Except.ok
        (w.setCell h
          ⟨(w.getCell h).callbacks.map (fun e =>
              (e.1, ⟨e.2.upd e.2.state v, e.2.upd, e.2.reentry, e.2.zst⟩)),
            (w.getCell h).nextPtr⟩,
         (w.getCell h).callbacks.map (fun e => (e.1, v))) := by
  unfold World.next
  rw [next_ok _ v hn]

theorem isNoop_iff {T σ : Type} (r : Reentry T σ) :
    r.isNoop = true ↔ r = Reentry.noop := by
  cases r <;> simp [Reentry.isNoop]

theorem traceNoop_spec {T σ : Type} (tr : List (Event T σ))
    (h : traceNoop tr = true) :
    ∀ cb : Callback T σ, Event.subscribeObs cb ∈ tr →
      cb.reentry = Reentry.noop := by
  induction tr with
  | nil => intro cb hcb; simp at hcb
  | cons hd tl ih =>
    intro cb hcb
    rcases List.mem_cons.mp hcb with heq | hmem
    · subst heq
      simp only [traceNoop, Bool.and_eq_true] at h
      exact (isNoop_iff cb.reentry).mp h.1
    · cases hd with
      | emit x => exact ih h cb hmem
      | subscribeObs cb2 =>
        simp only [traceNoop, Bool.and_eq_true] at h
        exact ih h.2 cb hmem

theorem runTrace_ok {T σ : Type} (tr : List (Event T σ)) :
    ∀ s : Subject T σ,
      (∀ e ∈ s.callbacks, e.2.reentry = Reentry.noop) →
      (∀ cb : Callback T σ, Event.subscribeObs cb ∈ tr →
        cb.reentry = Reentry.noop) →
      ∃ sOut, runTrace s tr =
        Except.ok (sOut,
          fromStreamSpecLog (s.callbacks.map Prod.fst) s.nextPtr tr) := by
  induction tr with
  | nil =>
    intro s _ _
    exact ⟨s, rfl⟩
  | cons hd tl ih =>
    intro s hs htr
    have htl : ∀ cb : Callback T σ, Event.subscribeObs cb ∈ tl →
        cb.reentry = Reentry.noop := by
      intro cb hcb
      exact htr cb (List.mem_cons_of_mem hd hcb)
    cases hd with
    | emit x =>
      have hx := next_ok s x hs
      set s2 : Subject T σ :=
        ⟨s.callbacks.map (fun e =>
          (e.1, ⟨e.2.upd e.2.state x, e.2.upd, e.2.reentry, e.2.zst⟩)),
         s.nextPtr⟩ with hs2
      have hs2noop : ∀ e ∈ s2.callbacks, e.2.reentry = Reentry.noop := by
        intro e he
        rw [hs2] at he
        obtain ⟨a, ha, rfl⟩ := List.mem_map.mp he
        exact hs a ha
      obtain ⟨sOut, hrun⟩ := ih s2 hs2noop htl
      refine ⟨sOut, ?_⟩
      simp only [runTrace, hx, hrun]
      have hids : s2.callbacks.map Prod.fst = s.callbacks.map Prod.fst := by
        rw [hs2]
        simp [List.map_map, Function.comp]
      have hptr : s2.nextPtr = s.nextPtr := by rw [hs2]
      rw [hids, hptr]
      simp only [fromStreamSpecLog, List.map_map]
      rfl
    | subscribeObs cb =>
      have hcb : cb.reentry = Reentry.noop :=
        htr cb (List.mem_cons_self _ _)
      have hs3 : ∀ e ∈ (s.subscribe cb).1.callbacks,
          e.2.reentry = Reentry.noop := by
        intro e he
        simp only [Subject.subscribe, List.mem_append,
          List.mem_singleton] at he
        rcases he with he | he
        · exact hs e he
        · rw [he]; exact hcb
      obtain ⟨sOut, hrun⟩ := ih (s.subscribe cb).1 hs3 htl
      refine ⟨sOut, ?_⟩
      simp only [runTrace, hrun]
      cases hz : cb.zst with
      | none =>
        simp [Subject.subscribe, boxAlloc, hz, fromStreamSpecLog]
      | some t =>
        simp [Subject.subscribe, boxAlloc, hz, fromStreamSpecLog]

/-- Claim C1: for every Subject (reached by any sequence of subscribe
calls) and a single `next v`, every currently registered callback is
invoked exactly once with `v`, in registration order (the invocation log is
exactly the registry mapped to `(ptr, v)` entries), synchronously before
`next` returns; each callback's capture environment is updated by one
invocation; and `next` returns a reference to the same Subject (the
registry keeps the same entries in the same order and the same allocation
supply, supporting chaining).  The hypothesis states that no registered
callback re-enters the registry, which would panic instead (see claim
C10). -/
theorem claim_C1_next_delivers {T σ : Type} (s : Subject T σ) (v : T)
    (hn : s.allNoop = true) :
    s.next v =
      Except.ok
        (⟨s.callbacks.map (fun e =>
            (e.1, ⟨e.2.upd e.2.state v, e.2.upd, e.2.reentry, e.2.zst⟩)),
          s.nextPtr⟩,
         s.callbacks.map (fun e => (e.1, v))) :=
  next_ok s v ((allNoop_iff s).mp hn)

/-- Witness for claim C1 at a concrete input: pushing 3 into `c1Sub`
invokes both callbacks once, in order, and updates their states to 3 and
6. -/
theorem claim_C1_witness :
    c1Sub.allNoop = true ∧
      c1Sub.next 3 =
        Except.ok
          (⟨[(CallbackPtr.heap 0,
              ⟨(3 : Int), fun st x => st + x, Reentry.noop, none⟩),
             (CallbackPtr.heap 1,
              ⟨(6 : Int), fun _ x => 2 * x, Reentry.noop, none⟩)], 2⟩,
           [(CallbackPtr.heap 0, 3), (CallbackPtr.heap 1, 3)]) :=
  ⟨rfl, claim_C1_next_delivers c1Sub 3 rfl⟩

/-- Claim C10: a `next` delivery pass holds the `RefCell`'s exclusive
mutable borrow of the shared registry for the entire pass, so if any
invoked callback re-entrantly performs a registry-accessing operation
(subscribe, unsubscribe, or another next) on the same Subject or any of
its clones, the program deterministically panics (modelled by
`Except.error ()`) instead of delivering. -/
theorem claim_C10_reentrant_next_panics {T σ : Type} (s : Subject T σ)
    (v : T) (h : ∃ e ∈ s.callbacks, e.2.reentry ≠ Reentry.noop) :
    s.next v = Except.error () :=
  next_error s v h

/-- Witness for claim C10 at a concrete input: the re-entrant `next`
panics. -/
theorem claim_C10_witness :
    (∃ e ∈ c10Sub.callbacks, e.2.reentry ≠ Reentry.noop) ∧
      c10Sub.next 1 = Except.error () :=
  ⟨⟨(CallbackPtr.heap 1, ⟨0, fun st _ => st, Reentry.reNext 7, none⟩),
    by simp [c10Sub], by simp⟩,
   claim_C10_reentrant_next_panics c10Sub 1
     ⟨(CallbackPtr.heap 1, ⟨0, fun st _ => st, Reentry.reNext 7, none⟩),
      by simp [c10Sub], by simp⟩⟩

/-- Counterexample to claim C3 as stated: the claim says a callback invoked
by a delivery pass may append to the registry in place without aborting and
the pass completes; on this concrete Subject, whose one callback subscribes
during the pass, the pass does not complete — it aborts with the `RefCell`
double-borrow panic. -/
theorem claim_C3_counterexample :
    (c3Sub.next 1).isOk = false :=
  rfl

/-- Claim C3 as amended: while a `next` delivery pass is in progress the
registry is exclusively borrowed, so an invoked callback must not append
to, remove from, or re-enter the registry of the same Subject (or any
clone): if any invoked callback does, the pass aborts with the `RefCell`
double-borrow panic rather than completing; the pass completes exactly
when no invoked callback accesses the registry.  (Registry mutation from
the single logical thread is only available between passes.) -/
theorem claim_C3_amended {T σ : Type} (s : Subject T σ) (v : T) :
    (∃ r, s.next v = Except.ok r) ↔ s.allNoop = true := by
  constructor
  · rintro ⟨r, hr⟩
    by_contra hn
    rw [allNoop_iff] at hn
    push_neg at hn
    rw [next_error s v hn] at hr
    exact Except.noConfusion hr
  · intro h
    exact ⟨_, next_ok s v ((allNoop_iff s).mp h)⟩

/-- Witness for the amended claim C3 at a concrete input: with a pure
registry the pass completes. -/
theorem claim_C3_amended_witness :
    ∃ r, c3aSub.next 1 = Except.ok r :=
  (claim_C3_amended c3aSub 1).mpr rfl

/-- Claim C6: removing one identity via `remove_callback` leaves the
remaining entries in their original relative order (the new registry is an
ordered sublist of the old), so a subsequent `next` delivers to exactly the
remaining entries in registration order (the delivery log lists the
surviving pointers as an ordered sublist of the original registration
order). -/
theorem claim_C6_removal_keeps_order {T σ : Type} (s : Subject T σ)
    (p : CallbackPtr) (v : T) (hn : s.allNoop = true) :
    ((s.remove_callback p).callbacks).Sublist s.callbacks ∧
    (∃ s2, (s.remove_callback p).next v =
      Except.ok (s2,
        (s.callbacks.filter (fun e => decide (e.1 ≠ p))).map
          (fun e => (e.1, v)))) ∧
    (((s.callbacks.filter (fun e => decide (e.1 ≠ p))).map
        (fun e => (e.1, v))).map Prod.fst).Sublist
      (s.callbacks.map Prod.fst) := by
  have hsub : (s.callbacks.filter (fun e => decide (e.1 ≠ p))).Sublist
      s.callbacks := List.filter_sublist s.callbacks
  have hnoop : ∀ e ∈ (s.remove_callback p).callbacks,
      e.2.reentry = Reentry.noop := by
    intro e he
    exact (allNoop_iff s).mp hn e (hsub.subset he)
  refine ⟨hsub, ⟨_, next_ok (s.remove_callback p) v hnoop⟩, ?_⟩
  have : ((s.callbacks.filter (fun e => decide (e.1 ≠ p))).map
      (fun e => (e.1, v))).map Prod.fst =
      (s.callbacks.filter (fun e => decide (e.1 ≠ p))).map Prod.fst := by
    simp [List.map_map]
  rw [this]
  exact hsub.map Prod.fst

/-- Witness for claim C6 at a concrete input: removing the box at heap
address 1 keeps the boxes at heap addresses 0 and 2 in order, and the next
delivery log lists exactly those two, in order. -/
theorem claim_C6_witness :
    c6Sub.allNoop = true ∧
    (((c6Sub.remove_callback (CallbackPtr.heap 1)).callbacks).Sublist
        c6Sub.callbacks ∧
    (∃ s2, (c6Sub.remove_callback (CallbackPtr.heap 1)).next 5 =
      Except.ok (s2,
        (c6Sub.callbacks.filter
            (fun e => decide (e.1 ≠ CallbackPtr.heap 1))).map
          (fun e => (e.1, (5 : Int))))) ∧
    (((c6Sub.callbacks.filter
          (fun e => decide (e.1 ≠ CallbackPtr.heap 1))).map
        (fun e => (e.1, (5 : Int)))).map Prod.fst).Sublist
      (c6Sub.callbacks.map Prod.fst)) :=
  ⟨rfl, claim_C6_removal_keeps_order c6Sub (CallbackPtr.heap 1) 5 rfl⟩

/-- Counterexample to claim C7 as stated: the claim says subscribe returns
a Subscription uniquely identifying the registration and that registering
the same closure value twice produces two independently-cancellable
entries.  Subscribing the same zero-sized closure `c7Z` twice boxes it
without allocating, so both subscriptions carry the very same fat pointer
(no unique identification), and cancelling the first subscription removes
both of the two entries — the other is not left registered. -/
theorem claim_C7_counterexample :
    c7s2.2 = c7s1.2 ∧
    c7s2.1.callbacks.length = 2 ∧
    (c7s2.1.remove_callback c7s1.2).callbacks = [] :=
  ⟨rfl, rfl, rfl⟩

/-- Claim C7 as amended: `subscribe` appends the given callback to the
registry (increasing its length by exactly one, never failing) and returns
the box pointer of this registration.  When the closure captures state its
box is a fresh heap allocation, so the returned pointer is distinct from
every live registration's, registering it twice yields two distinct
pointers, and the two entries are independently cancellable (cancelling
one leaves the other registered); but two registrations of the same
zero-sized (captureless) closure share one box pointer, and cancelling
either subscription removes both entries. -/
theorem claim_C7_amended {T σ : Type} (s : Subject T σ)
    (cb : Callback T σ) (hwf : s.wf = true) :
    (s.subscribe cb).1.callbacks
      = s.callbacks ++ [((s.subscribe cb).2, cb)] ∧
    (s.subscribe cb).1.callbacks.length = s.callbacks.length + 1 ∧
    (cb.zst = none →
      ((s.subscribe cb).2 ∉ s.callbacks.map Prod.fst ∧
       ((s.subscribe cb).1.subscribe cb).2 ≠ (s.subscribe cb).2 ∧
       (((s.subscribe cb).1.subscribe cb).1.remove_callback
           (s.subscribe cb).2).callbacks
         = s.callbacks ++ [(((s.subscribe cb).1.subscribe cb).2, cb)] ∧
       (((s.subscribe cb).1.subscribe cb).1.remove_callback
           ((s.subscribe cb).1.subscribe cb).2).callbacks
         = s.callbacks ++ [((s.subscribe cb).2, cb)])) ∧
    (∀ t, cb.zst = some t →
      ((s.subscribe cb).1.subscribe cb).2 = (s.subscribe cb).2) := by
  refine ⟨rfl, by simp [Subject.subscribe], ?_, ?_⟩
  · intro hz
    have hbox : boxAlloc s cb = (CallbackPtr.heap s.nextPtr, s.nextPtr + 1) := by
      unfold boxAlloc
      rw [hz]
    have h1 : (s.subscribe cb).2 = CallbackPtr.heap s.nextPtr := by
      simp [Subject.subscribe, hbox]
    have h2 : (s.subscribe cb).1.callbacks
        = s.callbacks ++ [(CallbackPtr.heap s.nextPtr, cb)] := by
      simp [Subject.subscribe, hbox]
    have h3 : (s.subscribe cb).1.nextPtr = s.nextPtr + 1 := by
      simp [Subject.subscribe, hbox]
    have hbox2 : boxAlloc (s.subscribe cb).1 cb
        = (CallbackPtr.heap (s.nextPtr + 1), s.nextPtr + 2) := by
      unfold boxAlloc
      rw [hz, h3]
    have h4 : ((s.subscribe cb).1.subscribe cb).2
        = CallbackPtr.heap (s.nextPtr + 1) := by
      show (boxAlloc (s.subscribe cb).1 cb).1 = _
      rw [hbox2]
    have h5 : ((s.subscribe cb).1.subscribe cb).1.callbacks
        = s.callbacks ++ [(CallbackPtr.heap s.nextPtr, cb)]
            ++ [(CallbackPtr.heap (s.nextPtr + 1), cb)] := by
      show (s.subscribe cb).1.callbacks
          ++ [((boxAlloc (s.subscribe cb).1 cb).1, cb)] = _
      rw [hbox2, h2]
    have hk1 : ∀ e ∈ s.callbacks,
        decide (e.1 ≠ CallbackPtr.heap s.nextPtr) = true := by
      intro e he
      rw [decide_eq_true_eq]
      intro hEq
      exact absurd (wf_spec s hwf e he s.nextPtr hEq) (lt_irrefl _)
    have hk2 : ∀ e ∈ s.callbacks,
        decide (e.1 ≠ CallbackPtr.heap (s.nextPtr + 1)) = true := by
      intro e he
      rw [decide_eq_true_eq]
      intro hEq
      have := wf_spec s hwf e he (s.nextPtr + 1) hEq
      omega
    refine ⟨?_, ?_, ?_, ?_⟩
    · rw [h1]
      intro hmem
      obtain ⟨e, he, heq⟩ := List.mem_map.mp hmem
      exact absurd (wf_spec s hwf e he s.nextPtr heq) (lt_irrefl _)
    · rw [h1, h4]
      simp
    · rw [h1, h4]
      unfold Subject.remove_callback
      rw [h5, List.filter_append, List.filter_append,
        List.filter_eq_self.mpr hk1]
      simp
    · rw [h1, h4]
      unfold Subject.remove_callback
      rw [h5, List.filter_append, List.filter_append,
        List.filter_eq_self.mpr hk2]
      simp
  · intro t hz
    have hbox : boxAlloc s cb = (CallbackPtr.zst t, s.nextPtr) := by
      unfold boxAlloc
      rw [hz]
    have h3 : (s.subscribe cb).1.nextPtr = s.nextPtr := by
      simp [Subject.subscribe, hbox]
    have hbox2 : boxAlloc (s.subscribe cb).1 cb
        = (CallbackPtr.zst t, s.nextPtr) := by
      unfold boxAlloc
      rw [hz, h3]
    have h1z : (s.subscribe cb).2 = CallbackPtr.zst t := by
      show (boxAlloc s cb).1 = _
      rw [hbox]
    have h4z : ((s.subscribe cb).1.subscribe cb).2 = CallbackPtr.zst t := by
      show (boxAlloc (s.subscribe cb).1 cb).1 = _
      rw [hbox2]
    rw [h1z, h4z]

/-- Witness for the amended claim C7 at a concrete input: subscribing the
capturing closure `c7Cb` twice to `c7Sub` boxes it at heap addresses 1 and
2, and removing either leaves the other entry registered. -/
theorem claim_C7_amended_witness :
    c7Sub.wf = true ∧
    ((c7Sub.subscribe c7Cb).1.callbacks
        = c7Sub.callbacks ++ [((c7Sub.subscribe c7Cb).2, c7Cb)] ∧
    (c7Sub.subscribe c7Cb).1.callbacks.length
        = c7Sub.callbacks.length + 1 ∧
    (c7Cb.zst = none →
      ((c7Sub.subscribe c7Cb).2 ∉ c7Sub.callbacks.map Prod.fst ∧
       ((c7Sub.subscribe c7Cb).1.subscribe c7Cb).2
          ≠ (c7Sub.subscribe c7Cb).2 ∧
       (((c7Sub.subscribe c7Cb).1.subscribe c7Cb).1.remove_callback
           (c7Sub.subscribe c7Cb).2).callbacks
         = c7Sub.callbacks
             ++ [(((c7Sub.subscribe c7Cb).1.subscribe c7Cb).2, c7Cb)] ∧
       (((c7Sub.subscribe c7Cb).1.subscribe c7Cb).1.remove_callback
           ((c7Sub.subscribe c7Cb).1.subscribe c7Cb).2).callbacks
         = c7Sub.callbacks ++ [((c7Sub.subscribe c7Cb).2, c7Cb)])) ∧
    (∀ t, c7Cb.zst = some t →
      ((c7Sub.subscribe c7Cb).1.subscribe c7Cb).2
        = (c7Sub.subscribe c7Cb).2)) :=
  ⟨rfl, claim_C7_amended c7Sub c7Cb rfl⟩

/-- Claim C8: all operations are total.  `subscribe` always succeeds and
appends one entry; `next` always completes delivery to all then-current
callbacks provided no invoked callback itself aborts (in this code a
registry-re-entering callback panics, see claim C10, so the hypothesis is
that none does); `remove_callback` with an identity no longer present in
the registry is a silent no-op leaving the registry unchanged, not an
error. -/
theorem claim_C8_operations_total {T σ : Type} (s : Subject T σ) (v : T)
    (p : CallbackPtr) (cb : Callback T σ) (hn : s.allNoop = true)
    (habs : p ∉ s.callbacks.map Prod.fst) :
    (∃ r, s.next v = Except.ok r) ∧
    s.remove_callback p = s ∧
    (s.subscribe cb).1.callbacks.length = s.callbacks.length + 1 := by
  refine ⟨⟨_, next_ok s v ((allNoop_iff s).mp hn)⟩, ?_,
    by simp [Subject.subscribe]⟩
  unfold Subject.remove_callback
  have hself : s.callbacks.filter (fun x => decide (x.1 ≠ p))
      = s.callbacks := by
    rw [List.filter_eq_self]
    intro a ha
    simp only [decide_eq_true_eq]
    intro hEq
    exact habs (List.mem_map.mpr ⟨a, ha, hEq⟩)
  rw [hself]

/-- Witness for claim C8 at a concrete input: `next 4` succeeds, removing
the absent heap address 99 is a no-op, and a subscribe grows the registry
to length 2. -/
theorem claim_C8_witness :
    c8Sub.allNoop = true ∧
    CallbackPtr.heap 99 ∉ c8Sub.callbacks.map Prod.fst ∧
    ((∃ r, c8Sub.next 4 = Except.ok r) ∧
    c8Sub.remove_callback (CallbackPtr.heap 99) = c8Sub ∧
    (c8Sub.subscribe
        ⟨0, fun _ x => x, Reentry.noop, none⟩).1.callbacks.length
      = c8Sub.callbacks.length + 1) :=
  ⟨rfl, by decide,
   claim_C8_operations_total c8Sub 4 (CallbackPtr.heap 99)
     ⟨0, fun _ x => x, Reentry.noop, none⟩ rfl (by decide)⟩

/-- Counterexample to claim C2 as stated: the claim says that after
unsubscribing one subscription every other registered callback is
unaffected and still receives every subsequent value exactly once.  After
subscribing the same zero-sized closure `c2Z` twice (two registry entries),
unsubscribing only the first subscription removes both entries — the boxes
share one fat pointer and `retain` removes every match — and a subsequent
`next 5` delivers to nobody: the other registered callback receives zero
invocations, not one. -/
theorem claim_C2_counterexample :
    (c2xw2.getCell 0).callbacks.length = 2 ∧
    ((c2xSubA.unsubscribe c2xw2).getCell 0).callbacks.length = 0 ∧
    (∃ w3, World.next (c2xSubA.unsubscribe c2xw2) 0 5 =
      Except.ok (w3, [])) :=
  ⟨rfl, rfl, ⟨_, rfl⟩⟩

/-- Claim C2 as amended: `unsubscribe` removes every registry entry whose
box pointer equals the subscription's stored pointer — the registration the
subscription represents, plus any other registration of the same zero-sized
closure, which shares that pointer.  A subsequent `next` delivers to
exactly the entries whose box pointer differs (which is every other
callback whenever the boxes are distinct live allocations, e.g. for any
capturing closure), each exactly once in registration order, and the
removed pointer receives zero invocations.  The claim's concrete
doubled-value scenario (a single capturing observer) is unchanged and is
exercised by the witness. -/
theorem claim_C2_amended {T σ : Type} (w : World T σ)
    (h : SubjectHandle) (p : CallbackPtr) (v : T)
    (hlt : h < w.cells.length) (hn : (w.getCell h).allNoop = true) :
    (((SubjectSubscription.mk h p).unsubscribe w).getCell h).callbacks
      = (w.getCell h).callbacks.filter (fun e => decide (e.1 ≠ p)) ∧
    (∃ w2, World.next ((SubjectSubscription.mk h p).unsubscribe w) h v =
      Except.ok (w2,
        ((w.getCell h).callbacks.filter (fun e => decide (e.1 ≠ p))).map
          (fun e => (e.1, v)))) ∧
    ∀ x : T, (p, x) ∉ ((w.getCell h).callbacks.filter
        (fun e => decide (e.1 ≠ p))).map (fun e => (e.1, v)) := by
  have hcell : (((SubjectSubscription.mk h p).unsubscribe w).getCell h) =
      (w.getCell h).remove_callback p :=
    getCell_setCell_self w h _ hlt
  have hnoop : ∀ e ∈ ((w.getCell h).remove_callback p).callbacks,
      e.2.reentry = Reentry.noop := by
    intro e he
    exact (allNoop_iff _).mp hn e
      ((List.filter_sublist (w.getCell h).callbacks).subset he)
  refine ⟨by rw [hcell]; rfl, ?_, ?_⟩
  · have hnext := world_next_ok ((SubjectSubscription.mk h p).unsubscribe w)
      h v (by rw [hcell]; exact hnoop)
    rw [hcell] at hnext
    exact ⟨_, hnext⟩
  · intro x hx
    obtain ⟨e, he, heq⟩ := List.mem_map.mp hx
    have hne : decide (e.1 ≠ p) = true := (List.mem_filter.mp he).2
    rw [decide_eq_true_eq] at hne
    exact hne (congrArg Prod.fst heq)

/-- Witness for the amended claim C2, running the claim's concrete
scenario: after subscribing the capturing doubling observer (boxed at heap
address 0), `next 1` records state 2; unsubscribing it and pushing `next 5`
delivers to nobody, so its recorded state stays 2. -/
theorem claim_C2_witness :
    World.next c2w1 0 1 = Except.ok (c2w2, [(CallbackPtr.heap 0, 1)]) ∧
    recordedState c2A.state c2A.upd (CallbackPtr.heap 0)
      [(CallbackPtr.heap 0, 1)] = 2 ∧
    c2s = SubjectSubscription.mk 0 (CallbackPtr.heap 0) ∧
    (0 < c2w2.cells.length ∧ (c2w2.getCell 0).allNoop = true) ∧
    ((((SubjectSubscription.mk 0 (CallbackPtr.heap 0)).unsubscribe
          c2w2).getCell 0).callbacks
        = (c2w2.getCell 0).callbacks.filter
            (fun e => decide (e.1 ≠ CallbackPtr.heap 0)) ∧
      (∃ w2, World.next
          ((SubjectSubscription.mk 0 (CallbackPtr.heap 0)).unsubscribe c2w2)
          0 5 =
        Except.ok (w2,
          ((c2w2.getCell 0).callbacks.filter
              (fun e => decide (e.1 ≠ CallbackPtr.heap 0))).map
            (fun e => (e.1, (5 : Int))))) ∧
      ∀ x : Int, (CallbackPtr.heap 0, x) ∉
        ((c2w2.getCell 0).callbacks.filter
            (fun e => decide (e.1 ≠ CallbackPtr.heap 0))).map
          (fun e => (e.1, (5 : Int)))) ∧
    recordedState c2A.state c2A.upd (CallbackPtr.heap 0)
      ([(CallbackPtr.heap 0, 1)] ++ []) = 2 :=
  ⟨rfl, rfl, rfl, ⟨Nat.zero_lt_succ 0, rfl⟩,
   claim_C2_amended c2w2 0 (CallbackPtr.heap 0) 5 (Nat.zero_lt_succ 0) rfl,
   rfl⟩

/-- Claim C4: cloning a Subject clones only the `Rc` pointer, so every
clone is a handle to the same underlying callback collection (the heap
cell is shared, no callback is cloned), and subscribing or pushing through
the clone is literally the same operation as through the original; in
particular, after subscribing `cbA` via the original and `cbB` via the
clone, a value pushed via either handle reaches both callbacks. -/
theorem claim_C4_clone_shares_registry {T σ : Type} (w : World T σ)
    (h : SubjectHandle) (cbA cbB : Callback T σ) (v : T)
    (hlt : h < w.cells.length) (hn : (w.getCell h).allNoop = true)
    (hA : cbA.reentry = Reentry.noop) (hB : cbB.reentry = Reentry.noop) :
    cloneSubject h = h ∧
    (∀ w2 : World T σ, w2.getCell (cloneSubject h) = w2.getCell h) ∧
    World.subscribe w (cloneSubject h) cbA = World.subscribe w h cbA ∧
    (World.next
        (World.subscribe (World.subscribe w h cbA).1 (cloneSubject h) cbB).1
        (cloneSubject h) v =
      World.next
        (World.subscribe (World.subscribe w h cbA).1 (cloneSubject h) cbB).1
        h v) ∧
    ∃ w3 log,
      World.next
        (World.subscribe (World.subscribe w h cbA).1 (cloneSubject h) cbB).1
        h v = Except.ok (w3, log) ∧
      ((World.subscribe w h cbA).2.callback, v) ∈ log ∧
      ((World.subscribe (World.subscribe w h cbA).1
          (cloneSubject h) cbB).2.callback, v) ∈ log := by
  refine ⟨rfl, fun w2 => rfl, rfl, rfl, ?_⟩
  set s0 := w.getCell h with hs0
  have hlt1 : h < (World.subscribe w h cbA).1.cells.length := by
    unfold World.subscribe
    rw [setCell_length]
    exact hlt
  have hcell1 : (World.subscribe w h cbA).1.getCell h = (s0.subscribe cbA).1 :=
    getCell_setCell_self w h _ hlt
  have hcell2 : (World.subscribe (World.subscribe w h cbA).1
      (cloneSubject h) cbB).1.getCell h =
      (((World.subscribe w h cbA).1.getCell h).subscribe cbB).1 :=
    getCell_setCell_self _ h _ hlt1
  rw [hcell1] at hcell2
  have hnoop : ∀ e ∈ (((s0.subscribe cbA).1).subscribe cbB).1.callbacks,
      e.2.reentry = Reentry.noop := by
    intro e he
    simp only [Subject.subscribe, List.append_assoc, List.mem_append,
      List.mem_singleton] at he
    rcases he with he | he | he
    · exact (allNoop_iff s0).mp hn e he
    · rw [he]; exact hA
    · rw [he]; exact hB
  have hnext := world_next_ok
    (World.subscribe (World.subscribe w h cbA).1 (cloneSubject h) cbB).1
    h v (by rw [hcell2]; exact hnoop)
  rw [hcell2] at hnext
  refine ⟨_, _, hnext, ?_, ?_⟩
  · show ((s0.subscribe cbA).2, v) ∈
      (((s0.subscribe cbA).1.subscribe cbB).1.callbacks.map
        (fun e => (e.1, v)))
    refine List.mem_map.mpr ⟨((s0.subscribe cbA).2, cbA), ?_, rfl⟩
    simp [Subject.subscribe]
  · have hc : (World.subscribe (World.subscribe w h cbA).1
        (cloneSubject h) cbB).2.callback
        = (((World.subscribe w h cbA).1.getCell h).subscribe cbB).2 := rfl
    rw [hc, hcell1]
    refine List.mem_map.mpr
      ⟨(((s0.subscribe cbA).1.subscribe cbB).2, cbB), ?_, rfl⟩
    simp [Subject.subscribe]

/-- Witness for claim C4 at a concrete input. -/
theorem claim_C4_witness :
    (0 < c4w.cells.length ∧ (c4w.getCell 0).allNoop = true ∧
      c4A.reentry = Reentry.noop ∧ c4B.reentry = Reentry.noop) ∧
    (cloneSubject 0 = 0 ∧
    (∀ w2 : World Int Int, w2.getCell (cloneSubject 0) = w2.getCell 0) ∧
    World.subscribe c4w (cloneSubject 0) c4A = World.subscribe c4w 0 c4A ∧
    (World.next
        (World.subscribe (World.subscribe c4w 0 c4A).1 (cloneSubject 0) c4B).1
        (cloneSubject 0) 7 =
      World.next
        (World.subscribe (World.subscribe c4w 0 c4A).1 (cloneSubject 0) c4B).1
        0 7) ∧
    ∃ w3 log,
      World.next
        (World.subscribe (World.subscribe c4w 0 c4A).1 (cloneSubject 0) c4B).1
        0 7 = Except.ok (w3, log) ∧
      ((World.subscribe c4w 0 c4A).2.callback, (7 : Int)) ∈ log ∧
      ((World.subscribe (World.subscribe c4w 0 c4A).1
          (cloneSubject 0) c4B).2.callback, (7 : Int)) ∈ log) :=
  ⟨⟨Nat.zero_lt_succ 0, rfl, rfl, rfl⟩,
   claim_C4_clone_shares_registry c4w 0 c4A c4B 7 (Nat.zero_lt_succ 0)
     rfl rfl rfl⟩

/-- Claim C9: `subscribe` consumes the Subject handle by value and moves it
into the returned `SubjectSubscription`, which therefore stores a handle to
the same shared registry the callback was appended to; `unsubscribe`
through the subscription acts on exactly that registry — it removes the
stored identity from the cell the handle points to (so the appended
registration is gone afterwards) and touches no other cell — and the
registry's cell remains allocated while the subscription is held. -/
theorem claim_C9_subscription_keeps_registry {T σ : Type} (w : World T σ)
    (h : SubjectHandle) (cb : Callback T σ) (hlt : h < w.cells.length) :
    (World.subscribe w h cb).2.source = h ∧
    ((World.subscribe w h cb).1.getCell h).callbacks
      = (w.getCell h).callbacks
          ++ [((World.subscribe w h cb).2.callback, cb)] ∧
    (∀ e ∈ (((World.subscribe w h cb).2.unsubscribe
        (World.subscribe w h cb).1).getCell h).callbacks,
      e.1 ≠ (World.subscribe w h cb).2.callback) ∧
    (∀ h2, h ≠ h2 →
      ((World.subscribe w h cb).2.unsubscribe
          (World.subscribe w h cb).1).getCell h2
        = w.getCell h2) ∧
    ((World.subscribe w h cb).2.unsubscribe
        (World.subscribe w h cb).1).cells.length = w.cells.length := by
  set s0 := w.getCell h with hs0
  have hcell1 : (World.subscribe w h cb).1.getCell h = (s0.subscribe cb).1 :=
    getCell_setCell_self w h _ hlt
  have hlt1 : h < (World.subscribe w h cb).1.cells.length := by
    unfold World.subscribe
    rw [setCell_length]
    exact hlt
  refine ⟨rfl, by rw [hcell1]; rfl, ?_, ?_, ?_⟩
  · have hcell2 : (((World.subscribe w h cb).2.unsubscribe
        (World.subscribe w h cb).1).getCell h)
        = ((World.subscribe w h cb).1.getCell h).remove_callback
            (World.subscribe w h cb).2.callback :=
      getCell_setCell_self _ h _ hlt1
    rw [hcell2]
    intro e he
    have := (List.mem_filter.mp he).2
    rw [decide_eq_true_eq] at this
    exact this
  · intro h2 hne
    have e1 : ((World.subscribe w h cb).2.unsubscribe
        (World.subscribe w h cb).1).getCell h2
        = (World.subscribe w h cb).1.getCell h2 :=
      getCell_setCell_ne _ h h2 _ hne
    have e2 : (World.subscribe w h cb).1.getCell h2 = w.getCell h2 :=
      getCell_setCell_ne _ h h2 _ hne
    rw [e1, e2]
  · unfold SubjectSubscription.unsubscribe World.subscribe
    rw [setCell_length, setCell_length]

/-- Witness for claim C9 at a concrete input. -/
theorem claim_C9_witness :
    0 < c9w.cells.length ∧
    ((World.subscribe c9w 0 c9Cb).2.source = 0 ∧
    ((World.subscribe c9w 0 c9Cb).1.getCell 0).callbacks
      = (c9w.getCell 0).callbacks
          ++ [((World.subscribe c9w 0 c9Cb).2.callback, c9Cb)] ∧
    (∀ e ∈ (((World.subscribe c9w 0 c9Cb).2.unsubscribe
        (World.subscribe c9w 0 c9Cb).1).getCell 0).callbacks,
      e.1 ≠ (World.subscribe c9w 0 c9Cb).2.callback) ∧
    (∀ h2, 0 ≠ h2 →
      ((World.subscribe c9w 0 c9Cb).2.unsubscribe
          (World.subscribe c9w 0 c9Cb).1).getCell h2
        = c9w.getCell h2) ∧
    ((World.subscribe c9w 0 c9Cb).2.unsubscribe
        (World.subscribe c9w 0 c9Cb).1).cells.length = c9w.cells.length) :=
  ⟨Nat.zero_lt_succ 0,
   claim_C9_subscription_keeps_registry c9w 0 c9Cb (Nat.zero_lt_succ 0)⟩

/-- Claim C5: `from_stream` constructs a new Subject whose registry starts
empty, wires a forwarding callback that replays each upstream item into it
via `next` on a shared handle, and returns it; running any interleaving of
upstream productions and downstream subscriptions yields exactly the
spec-side log: every observer subscribed at the time of an upstream
production receives that item exactly once in registration order, and
observers subscribing after a given item never receive it. -/
theorem claim_C5_from_stream_forwards {T σ : Type} (tr : List (Event T σ))
    (h : traceNoop tr = true) :
    (Subject.new : Subject T σ).callbacks = [] ∧
    ∃ sOut, Subject.from_stream tr =
      Except.ok (sOut, fromStreamSpecLog [] 0 tr) := by
  refine ⟨rfl, ?_⟩
  obtain ⟨sOut, hrun⟩ := runTrace_ok tr Subject.new
    (by intro e he; simp [Subject.new] at he) (traceNoop_spec tr h)
  exact ⟨sOut, hrun⟩

/-- Witness for claim C5 at a concrete trace: the observer boxed at heap
address 0 receives items 1 and 2, the observer boxed at heap address 1
(subscribed between the emissions) receives only item 2 and does not
retroactively receive item 1. -/
theorem claim_C5_witness :
    traceNoop c5Trace = true ∧
    ((Subject.new : Subject Int Int).callbacks = [] ∧
      ∃ sOut, Subject.from_stream c5Trace =
        Except.ok (sOut, fromStreamSpecLog [] 0 c5Trace)) ∧
    fromStreamSpecLog ([] : List CallbackPtr) 0 c5Trace =
      [(CallbackPtr.heap 0, 1), (CallbackPtr.heap 0, 2),
       (CallbackPtr.heap 1, 2)] :=
  ⟨rfl, claim_C5_from_stream_forwards c5Trace rfl, rfl⟩
